import Mathlib

/-
Verification development for the scavenger-hunt kiosk firmware
(src/src/main.cpp).  The definitions below are a shallow embedding of the
device's core logic: constant-time string comparison, codeword matching,
idempotent scoring, leaderboard ranking, the persistent-store write
discipline, the admin authentication guard, the firmware-version reset
policy, and the factory-reset paths.  Machine integers are modelled as
Nat/Int (all relevant quantities stay far from overflow on the device's
32-bit types), byte strings as Lean strings over their character codes,
and the filesystem as explicit document/byte maps passed through each
operation.
-/

namespace Scavenger

/-! ## Functional limits and policy flags (main.cpp lines 27-47) -/

def TOKEN_MAXLEN : Nat := 64

def NAME_MAXLEN : Nat := 40

def PIN_MINLEN : Nat := 4

def PIN_MAXLEN : Nat := 6

def LEADERBOARD_SIZE : Nat := 20

def RESET_ADMIN_ON_VERSION : Bool := true

def FORCE_SETUP_MODE_ON_VERSION : Bool := true

def WIPE_CHECKPOINTS_ON_VERSION : Bool := false

def WIPE_TEAMS_ON_VERSION : Bool := false

/-! ## Data model (main.cpp lines 56-131) -/

structure Checkpoint where
  id : String
  name : String
  token_text : String
  points : Int
deriving Repr, DecidableEq

structure Team where
  id : String
  name : String
  pin_hash : String
  found : List String
  points : Int
  created_at : Nat
deriving Repr, DecidableEq

inductive Mode where
  | setup
  | game
deriving Repr, DecidableEq

structure Config where
  admin_hash : String
  setup_ssid : String
  setup_pass : String
  game_ssid : String
  game_pass : String
  fw_version : String
  mode : Mode
deriving Repr, DecidableEq

/-! ## consttime_eq (main.cpp lines 337-347)

The loop reads `max la lb` positions; a position past a string's end
contributes the byte 0.  The accumulated value is the bitwise OR of the
XORs of the two bytes at each position. -/

/-- Byte read at position `i` by the comparison loop: the character code at
`i`, or 0 once `i` is past the end of `s` (the source reads the char 0). -/
def padByte (s : String) (i : Nat) : Nat :=
  match s.data.get? i with
  | some c => c.toNat
  | none => 0

/-- Embedding of `consttime_eq`: OR together the XOR of the bytes at every
position below `max la lb`, then require a zero difference and equal
lengths. -/
def consttime_eq (a b : String) : Bool :=
  let la := a.length
  let lb := b.length
  let l := max la lb
  let diff := (List.range l).foldl (fun d i => d ||| (padByte a i ^^^ padByte b i)) 0
  diff == 0 && la == lb

/-- Number of loop iterations `consttime_eq` executes: one per position
below the larger of the two lengths.  This is the cost model for the
timing claim — each iteration does the same constant amount of work
regardless of the bytes compared. -/
def consttime_eqSteps (a b : String) : Nat :=
  (List.range (max a.length b.length)).length

/-! ## Character and string utilities (main.cpp lines 397-421)

`asciiLower` embeds Arduino `String::toLowerCase`, which lowercases the
ASCII letters byte by byte; `trimChars` embeds Arduino `String::trim`,
which strips the `isspace` characters (space and the 0x09..0x0D control
characters) from both ends. -/

def isSpaceByte (c : Char) : Bool :=
  c == ' ' || (9 ≤ c.toNat && c.toNat ≤ 13)

def trimChars (s : String) : String :=
  String.mk (((s.data.dropWhile isSpaceByte).reverse.dropWhile isSpaceByte).reverse)

def asciiLowerChar (c : Char) : Char :=
  if 65 ≤ c.toNat ∧ c.toNat ≤ 90 then Char.ofNat (c.toNat + 32) else c

def asciiLower (s : String) : String :=
  String.mk (s.data.map asciiLowerChar)

/-- Embedding of `saneToken`: 1..TOKEN_MAXLEN characters, each drawn from
letters, digits, dash, underscore, slash or space. -/
def saneChar (c : Char) : Bool :=
  (65 ≤ c.toNat && c.toNat ≤ 90) || (97 ≤ c.toNat && c.toNat ≤ 122) ||
  (48 ≤ c.toNat && c.toNat ≤ 57) ||
  c == '-' || c == '_' || c == '/' || c == ' '

def saneToken (s : String) : Bool :=
  decide (1 ≤ s.length) && decide (s.length ≤ TOKEN_MAXLEN) && s.data.all saneChar

/-- The copy loop of `sanitizeName`: drop markup-special characters
(`<ANGLE>`, quotes, ampersand) and control characters, and stop once the
output holds NAME_MAXLEN characters. -/
def sanitizeStrip : List Char → List Char → List Char
  | [], out => out
  | c :: rest, out =>
    if NAME_MAXLEN ≤ out.length then out
    else if c = '<' ∨ c = '>' ∨ c = Char.ofNat 34 ∨ c = Char.ofNat 39 ∨ c = '&' then
      sanitizeStrip rest out
    else if c.toNat < 32 then sanitizeStrip rest out
    else sanitizeStrip rest (out ++ [c])

def sanitizeName (s : String) : String :=
  trimChars (String.mk (sanitizeStrip s.data []))

/-! ## Catalog/roster lookups and scoring (main.cpp lines 356-393) -/

def findCheckpointById (cps : List Checkpoint) (id : String) : Option Checkpoint :=
  cps.find? (fun c => c.id == id)

def findTeamById (ts : List Team) (id : String) : Option Team :=
  ts.find? (fun t => t.id == id)

def findTeamByName (ts : List Team) (nm : String) : Option Team :=
  ts.find? (fun t => t.name == nm)

def teamFoundHas (t : Team) (chkId : String) : Bool :=
  t.found.any (fun x => x == chkId)

/-- Sum of the catalog point values of the ids in `found`; an id with no
surviving catalog item contributes nothing. -/
def pointsFromFound (cps : List Checkpoint) (found : List String) : Int :=
  found.foldl (fun pts cid =>
    match findCheckpointById cps cid with
    | some c => pts + c.points
    | none => pts) 0

def updatePointsFromFound (cps : List Checkpoint) (t : Team) : Team :=
  { t with points := pointsFromFound cps t.found }

/-- Embedding of `teamAddFound`: no-op when the id is already present,
otherwise append it and recompute the team's points (the `points` argument
of the source is ignored there as well). -/
def teamAddFound (cps : List Checkpoint) (t : Team) (chkId : String) : Bool × Team :=
  if teamFoundHas t chkId then (false, t)
  else (true, updatePointsFromFound cps { t with found := t.found ++ [chkId] })

/-! ## Codeword matching (main.cpp lines 1123-1130 and, verbatim copy,
lines 1158-1164)

Both the `/api/team/submit_code` and `/api/team/scan_qr` handlers run the
same single loop over the catalog: for each item, first an exact
`consttime_eq` comparison, then a lowercase comparison, breaking at the
first item that matches either way. -/

def findMatch : List Checkpoint → String → Option Checkpoint
  | [], _ => none
  | cc :: rest, token =>
    if consttime_eq cc.token_text token then some cc
    else if asciiLower cc.token_text == asciiLower token then some cc
    else findMatch rest token

/-- Modelled from the spec: the two-pass matching procedure §4.4 describes —
first scan the whole catalog for an exact match, and only if no item
matches exactly fall back to a case-insensitive scan.  Written to compare
with `findMatch`, the procedure the code actually runs. -/
def findMatchSpecTwoPass (cps : List Checkpoint) (token : String) : Option Checkpoint :=
  match cps.find? (fun cc => consttime_eq cc.token_text token) with
  | some c => some c
  | none => cps.find? (fun cc => asciiLower cc.token_text == asciiLower token)

/-! ## Scoring engine state and submit_code (main.cpp lines 1111-1142) -/

/-- In-memory catalog and roster plus the two persisted documents that the
scoring handlers touch.  A document is modelled at record granularity
(spec §6: formats are conceptual, not byte-exact). -/
structure ScoreState where
  checkpoints : List Checkpoint
  teams : List Team
  checkpointsDoc : Option (List Checkpoint)
  teamsDoc : Option (List Team)
deriving Repr, DecidableEq

inductive SubmitResult where
  | teamNotFound
  | emptyToken
  | noMatch
  | duplicate (points : Int)
  | accepted (awarded : Int) (total : Int) (checkpointId : String)
deriving Repr, DecidableEq

/-- The C++ handler mutates the team in place through the pointer returned
by `findTeamById`; here the first roster entry with the matching id is
replaced. -/
def replaceFirstTeam : List Team → String → Team → List Team
  | [], _, _ => []
  | t :: rest, tid, t1 =>
    if t.id == tid then t1 :: rest else t :: replaceFirstTeam rest tid t1

/-- `saveTeams` serializes the current in-memory roster into the teams
document. -/
def saveTeams (st : ScoreState) : ScoreState :=
  { st with teamsDoc := some st.teams }

/-- Embedding of the `/api/team/submit_code` handler body (after JSON
parsing): resolve the team, trim the token, reject empty, match, report
duplicate, or award and persist.  The `/api/team/scan_qr` handler is a
verbatim copy of the same logic. -/
def submitCode (st : ScoreState) (team_id token : String) : SubmitResult × ScoreState :=
  match findTeamById st.teams team_id with
  | none => (.teamNotFound, st)
  | some t =>
    let tok := trimChars token
    if tok.length == 0 then (.emptyToken, st)
    else
      match findMatch st.checkpoints tok with
      | none => (.noMatch, st)
      | some c =>
        if teamFoundHas t c.id then (.duplicate t.points, st)
        else
          let t1 := (teamAddFound st.checkpoints t c.id).2
          let st1 := saveTeams { st with teams := replaceFirstTeam st.teams team_id t1 }
          (.accepted c.points t1.points c.id, st1)

/-! ## Claim C1: matching precedence -/

/-- A catalog whose first item matches "LEAF" only case-insensitively and
whose second item matches it exactly. -/
def demoCatC1 : List Checkpoint :=
  [⟨"A", "Lower", "leaf", 10⟩, ⟨"B", "Upper", "LEAF", 10⟩]

/-- Concrete scoring state for the C2 witness: one catalog item, one team
that has found nothing yet. -/
def demoStateC2 : ScoreState :=
  { checkpoints := [⟨"C1", "Oak Tree", "LEAF-42", 10⟩]
  , teams := [⟨"T1", "Foxes", "", [], 0, 0⟩]
  , checkpointsDoc := some [⟨"C1", "Oak Tree", "LEAF-42", 10⟩]
  , teamsDoc := some [⟨"T1", "Foxes", "", [], 0, 0⟩] }

/-! ## Catalog replacement and registration
(main.cpp lines 349-354, 985-1005, 1048-1062) -/

/-- One already-parsed row of the JSON array posted to
`/api/admin/checkpoints` (absent fields read back as their defaults by the
handler). -/
structure CheckpointInput where
  id : String
  name : String
  token_text : String
  points : Int
deriving Repr, DecidableEq

/-- Zero-padded three-digit rendering of `n % 1000` — the `"%03u"` in
`newId`. -/
def pad3 (n : Nat) : String :=
  String.mk [Char.ofNat (48 + n / 100 % 10), Char.ofNat (48 + n / 10 % 10),
    Char.ofNat (48 + n % 10)]

/-- Embedding of `newId`: the one-letter kind tag followed by the random
draw `r` (from `esp_random()`) reduced modulo 1000.  No uniqueness check of
any kind is performed. -/
def newId (tag : String) (r : Nat) : String :=
  tag ++ pad3 (r % 1000)

/-- The row loop of the `/api/admin/checkpoints` POST handler.  `rng` is
the stream of `esp_random()` draws; one draw is consumed for every row
whose submitted id is empty (also for rows later dropped, since the id is
synthesized before the token check). -/
def buildCatalog : List CheckpointInput → List Nat → List Checkpoint
  | [], _ => []
  | o :: rest, rng =>
    let cid := if o.id.length == 0 then newId "C" (rng.headD 0) else o.id
    let rng1 := if o.id.length == 0 then rng.tail else rng
    let nm := sanitizeName o.name
    let tok := trimChars o.token_text
    if saneToken tok then
      { id := cid, name := nm, token_text := tok, points := o.points } ::
        buildCatalog rest rng1
    else buildCatalog rest rng1

def saveCheckpointsDoc (st : ScoreState) : ScoreState :=
  { st with checkpointsDoc := some st.checkpoints }

/-- Embedding of the `/api/admin/checkpoints` POST handler: replace the
in-memory catalog wholesale with the validated rows and persist it.  The
roster is not touched and no team's points are recomputed. -/
def saveCatalog (st : ScoreState) (items : List CheckpointInput) (rng : List Nat) :
    ScoreState :=
  saveCheckpointsDoc { st with checkpoints := buildCatalog items rng }

inductive RegisterResult where
  | badFields
  | nameExists
  | ok (team_id : String)
deriving Repr, DecidableEq

/-- Embedding of the `/api/register` handler (after JSON parsing); `h` is
the SHA-256 hex digest primitive, `r` the `esp_random()` draw for the team
id and `now` the registration time `millis()/1000`. -/
def registerTeam (h : String → String) (st : ScoreState) (team_name pin : String)
    (r now : Nat) : RegisterResult × ScoreState :=
  let nm := sanitizeName team_name
  if nm.length < 1 ∨ pin.length < PIN_MINLEN ∨ PIN_MAXLEN < pin.length then
    (.badFields, st)
  else
    match findTeamByName st.teams nm with
    | some _ => (.nameExists, st)
    | none =>
      let t : Team :=
        { id := newId "T" r, name := nm, pin_hash := h pin, found := [],
          points := 0, created_at := now }
      let t1 := updatePointsFromFound st.checkpoints t
      let st1 := saveTeams { st with teams := st.teams ++ [t1] }
      (.ok t1.id, st1)

/-! ## Claim C3: the points invariant -/

/-- The spec's §8 invariant: every team's stored points equal the sum of
the catalog point values of its found item ids. -/
def pointsInvariant (st : ScoreState) : Prop :=
  ∀ t ∈ st.teams, t.points = pointsFromFound st.checkpoints t.found

/-- Scoring state for the C3 counterexample: the invariant holds (one team
holding the one 10-point item). -/
def demoStateC3 : ScoreState :=
  { checkpoints := [⟨"C1", "Oak Tree", "LEAF", 10⟩]
  , teams := [⟨"T1", "Foxes", "", ["C1"], 10, 0⟩]
  , checkpointsDoc := some [⟨"C1", "Oak Tree", "LEAF", 10⟩]
  , teamsDoc := some [⟨"T1", "Foxes", "", ["C1"], 10, 0⟩] }

/-! ## Leaderboard (main.cpp lines 47, 1179-1195) -/

structure LBEntry where
  name : String
  points : Int
  found : Nat
deriving Repr, DecidableEq

/-- The leaderboard's ranking order: more points first, ties broken by
earlier created_at.  This is the reflexive closure of the strict
comparator the handler passes to std::sort. -/
def lbRank (a b : Team) : Prop :=
  b.points < a.points ∨ (a.points = b.points ∧ a.created_at ≤ b.created_at)

instance : DecidableRel lbRank := fun a b => by
  unfold lbRank
  infer_instance

instance : IsTotal Team lbRank := ⟨by
  intro a b
  unfold lbRank
  omega⟩

instance : IsTrans Team lbRank := ⟨by
  intro a b c hab hbc
  unfold lbRank at hab hbc ⊢
  omega⟩

/-- Embedding of the `/api/leaderboard` handler: recompute every team's
points in place, sort a copy with the points-desc/created_at-asc
comparator, and emit name, points and found count of the first
LEADERBOARD_SIZE entries.  std::sort may return any permutation sorted
for the comparator; the deterministic insertion sort used here returns
one such permutation.  Neither persisted document is written. -/
def leaderboardHandler (st : ScoreState) : List LBEntry × ScoreState :=
  let teams1 := st.teams.map (updatePointsFromFound st.checkpoints)
  let v := List.insertionSort lbRank teams1
  let out := (v.take LEADERBOARD_SIZE).map
    (fun t => LBEntry.mk t.name t.points t.found.length)
  (out, { st with teams := teams1 })

/-- Concrete state for the C7 witness: two teams whose stale points fields
are refreshed and ranked by the leaderboard. -/
def demoStateC7 : ScoreState :=
  { checkpoints := [⟨"C1", "Oak", "LEAF", 10⟩, ⟨"C2", "Elm", "BARK", 5⟩]
  , teams := [⟨"T1", "Foxes", "", ["C2"], 0, 3⟩, ⟨"T2", "Bears", "", ["C1"], 0, 5⟩]
  , checkpointsDoc := some [⟨"C1", "Oak", "LEAF", 10⟩, ⟨"C2", "Elm", "BARK", 5⟩]
  , teamsDoc := some [⟨"T1", "Foxes", "", ["C2"], 0, 3⟩, ⟨"T2", "Bears", "", ["C1"], 0, 5⟩] }

/-! ## Device configuration, version reset and factory reset
(main.cpp lines 167-179, 292-317, 1205-1217)

The three persisted documents are modelled at record granularity; the
byte-level write discipline of the store is modelled separately below. -/

structure Device where
  config : Config
  configDoc : Option Config
  checkpointsDoc : Option (List Checkpoint)
  teamsDoc : Option (List Team)
deriving Repr, DecidableEq

/-- Embedding of `saveConfig`: the persisted record carries the in-memory
fields except `game_pass`, which is written as "" on every save (the game
network is unconditionally open). -/
def saveConfig (st : Device) : Device :=
  { st with configDoc := some { st.config with game_pass := "" } }

/-- Embedding of `applyVersionResetIfNeeded`: on marker mismatch apply the
compiled-in policy flags in order, adopt the current marker and save; on
match do nothing. -/
def applyVersionResetIfNeeded (fwVersion storedVersion : String) (st : Device) :
    Device :=
  if storedVersion == fwVersion then st
  else
    let st1 := if RESET_ADMIN_ON_VERSION then
      { st with config := { st.config with admin_hash := "" } } else st
    let st2 := if FORCE_SETUP_MODE_ON_VERSION then
      { st1 with config := { st1.config with mode := Mode.setup } } else st1
    let st3 := if WIPE_CHECKPOINTS_ON_VERSION then
      { st2 with checkpointsDoc := none } else st2
    let st4 := if WIPE_TEAMS_ON_VERSION then
      { st3 with teamsDoc := none } else st3
    saveConfig { st4 with config := { st4.config with fw_version := fwVersion } }

/-- Embedding of `factoryReset`: the wipe-all variant formats the
filesystem (every document removed) and re-seeds the configuration with
the current firmware marker; the operator-only variant clears the admin
hash, forces SETUP mode and saves, touching nothing else.  (The process
restart that follows the HTTP reply is outside the embedding.) -/
def factoryReset (fwVersion : String) (wipeAll : Bool) (st : Device) : Device :=
  if wipeAll then
    let st1 : Device :=
      { st with configDoc := none, checkpointsDoc := none, teamsDoc := none }
    saveConfig { st1 with config := { st1.config with admin_hash := "", mode := Mode.setup, fw_version := fwVersion } }
  else
    saveConfig { st with config := { st.config with admin_hash := "", mode := Mode.setup } }

/-- A configured device running firmware "v1" for the C4 witness. -/
def demoDeviceC4 : Device :=
  { config := ⟨"aabb", "SCAVENGER-SETUP", "organizer123", "SCAVENGER", "", "v1", Mode.game⟩
  , configDoc := some ⟨"aabb", "SCAVENGER-SETUP", "organizer123", "SCAVENGER", "", "v1", Mode.game⟩
  , checkpointsDoc := some [⟨"C1", "Oak", "LEAF", 10⟩]
  , teamsDoc := some [⟨"T1", "Foxes", "", ["C1"], 10, 0⟩] }

/-! ## Claim C5: crash-safe save discipline (main.cpp lines 151-160)

The filesystem is modelled as an association list from paths to byte
contents.  `t.print`'s return value — the number of characters the flash
actually commits — is the `written` oracle; after the print the temporary
file holds exactly that prefix of the data. -/

abbrev FS : Type := List (String × String)

def fsLookup (fs : FS) (p : String) : Option String :=
  (List.find? (fun e => e.1 == p) fs).map Prod.snd

def fsRemove (fs : FS) (p : String) : FS :=
  List.filter (fun e => !(e.1 == p)) fs

def fsInsert (fs : FS) (p v : String) : FS :=
  fsRemove fs p ++ [(p, v)]

def strTake (s : String) (n : Nat) : String :=
  String.mk (s.data.take n)

/-- Embedding of `writeStringToFile`: open `path.tmp` truncating, print
the data (committing `written` of its characters), close; if the count
does not match the data length, remove the temporary and fail; otherwise
remove any prior final file and rename the temporary into place (the
rename looks up the temporary's content and fails if it is gone). -/
def writeStringToFile (fs : FS) (path data : String) (written : Nat) : Bool × FS :=
  let tmp := path ++ ".tmp"
  let n := min written data.length
  let fs1 := fsInsert fs tmp (strTake data n)
  if n ≠ data.length then (false, fsRemove fs1 tmp)
  else
    let fs2 := fsRemove fs1 path
    match fsLookup fs2 tmp with
    | some content => (true, fsInsert (fsRemove fs2 tmp) path content)
    | none => (false, fs2)

/-! ## Claim C6: operator authentication (main.cpp lines 485-528)

`parseBasicAuth` decodes the standard Basic credential: the base64 payload
after the "Basic " marker, truncated at the first NUL (the C++ builds a
C string from the decoded buffer), split at the first colon.  The mbedtls
SHA-256 hex primitive is a parameter `h` of the guard; string prefix
operations are modelled on the character lists. -/

def b64Val (c : Char) : Option Nat :=
  if 65 ≤ c.toNat ∧ c.toNat ≤ 90 then some (c.toNat - 65)
  else if 97 ≤ c.toNat ∧ c.toNat ≤ 122 then some (c.toNat - 97 + 26)
  else if 48 ≤ c.toNat ∧ c.toNat ≤ 57 then some (c.toNat - 48 + 52)
  else if c = '+' then some 62
  else if c = '/' then some 63
  else none

/-- Base64 decoding by four-character groups with optional trailing '='
padding, as mbedtls_base64_decode accepts it; any other character or a
ragged length is rejected. -/
def base64DecodeGroups : List Char → Option (List Nat)
  | [] => some []
  | a :: b :: c :: d :: rest =>
    match b64Val a, b64Val b with
    | some va, some vb =>
      if c = '=' ∧ d = '=' ∧ rest = [] then some [va * 4 + vb / 16]
      else
        match b64Val c with
        | some vc =>
          if d = '=' ∧ rest = [] then
            some [va * 4 + vb / 16, vb % 16 * 16 + vc / 4]
          else
            match b64Val d with
            | some vd =>
              (base64DecodeGroups rest).map
                (fun t => (va * 4 + vb / 16) :: (vb % 16 * 16 + vc / 4) ::
                  (vc % 4 * 64 + vd) :: t)
            | none => none
        | none => none
    | _, _ => none
  | _ => none

/-- The decoded buffer read back as a C string: bytes up to the first NUL. -/
def bytesToCString (bs : List Nat) : String :=
  String.mk ((bs.takeWhile (fun n => !(n == 0))).map Char.ofNat)

/-- Embedding of `parseBasicAuth`: require the "Basic " marker, base64
decode the remainder (an empty decode is the needed == 0 failure), and
split the decoded credential at its first colon into user and secret. -/
def parseBasicAuth (auth : String) : Option (String × String) :=
  if auth.data.take 6 = "Basic ".data then
    match base64DecodeGroups (auth.data.drop 6) with
    | none => none
    | some bs =>
      if bs.length == 0 then none
      else
        let decoded := bytesToCString bs
        match decoded.data.findIdx? (fun c => c == ':') with
        | none => none
        | some i =>
          some (String.mk (decoded.data.take i), String.mk (decoded.data.drop (i + 1)))
  else none

inductive GuardResult where
  | granted
  | denied (code : Nat) (wwwAuthenticate : Bool)
deriving Repr, DecidableEq

/-- Embedding of `adminGuard`: grant while no secret is configured
(first-time setup), grant a parseable Basic credential whose secret hashes
to the stored value under consttime_eq, and otherwise answer 401 with a
WWW-Authenticate challenge. -/
def adminGuard (h : String → String) (admin_hash authHeader : String) : GuardResult :=
  if admin_hash.length == 0 then .granted
  else
    match parseBasicAuth authHeader with
    | some (_, p) =>
      if consttime_eq (h p) admin_hash then .granted else .denied 401 true
    | none => .denied 401 true

structure HttpResponse where
  code : Nat
  wwwAuthenticate : Bool
deriving Repr, DecidableEq

/-- Every admin handler begins with `if (!adminGuard(req)) return;`: on
denial the handler body never runs, the state is untouched and the
challenge response already sent by the guard is all the client sees. -/
def withAdminGuard {σ : Type} (h : String → String) (hash hdr : String)
    (st : σ) (body : σ → HttpResponse × σ) : HttpResponse × σ :=
  match adminGuard h hash hdr with
  | .granted => body st
  | .denied code ch => (⟨code, ch⟩, st)

/-! ## Claim C9: catalog id uniqueness -/

def demoEmptyC9 : ScoreState :=
  { checkpoints := [], teams := [], checkpointsDoc := none, teamsDoc := none }

def demoItemsC9 : List CheckpointInput :=
  [⟨"", "a", "AA", 1⟩, ⟨"", "b", "BB", 1⟩]

/-! ### Correctness of consttime_eq -/

theorem nat_or_eq_zero (a b : Nat) : a ||| b = 0 ↔ a = 0 ∧ b = 0 := by
  constructor
  · intro h
    constructor
    · apply Nat.eq_of_testBit_eq
      intro i
      have hb := congrArg (fun x => Nat.testBit x i) h
      simp only [Nat.testBit_or, Nat.zero_testBit, Bool.or_eq_false_iff] at hb
      simp [hb.1]
    · apply Nat.eq_of_testBit_eq
      intro i
      have hb := congrArg (fun x => Nat.testBit x i) h
      simp only [Nat.testBit_or, Nat.zero_testBit, Bool.or_eq_false_iff] at hb
      simp [hb.2]
  · rintro ⟨rfl, rfl⟩; rfl

theorem or_foldl_eq_zero (f : Nat → Nat) (xs : List Nat) (d : Nat) :
    xs.foldl (fun d i => d ||| f i) d = 0 ↔ d = 0 ∧ ∀ i ∈ xs, f i = 0 := by
  induction xs generalizing d with
  | nil => simp
  | cons x xs ih =>
    simp only [List.foldl_cons, ih, nat_or_eq_zero, List.mem_cons]
    constructor
    · rintro ⟨⟨hd, hx⟩, hall⟩
      exact ⟨hd, fun i hi => hi.elim (fun h => h ▸ hx) (hall i)⟩
    · rintro ⟨hd, hall⟩
      exact ⟨⟨hd, hall x (Or.inl rfl)⟩, fun i hi => hall i (Or.inr hi)⟩

theorem char_toNat_inj {a b : Char} (h : a.toNat = b.toNat) : a = b := by
  apply Char.ext
  unfold Char.toNat at h
  exact UInt32.toNat.inj h

theorem padByte_eq_of_eq {a b : String} (h : a = b) (i : Nat) :
    padByte a i = padByte b i := by rw [h]

theorem consttime_eq_true_iff (a b : String) :
    consttime_eq a b = true ↔ a = b := by
  unfold consttime_eq
  simp only [Bool.and_eq_true, beq_iff_eq, or_foldl_eq_zero, Nat.xor_eq_zero]
  constructor
  · rintro ⟨⟨-, hall⟩, hlen⟩
    apply String.ext
    apply List.ext_get?
    intro n
    by_cases hn : n < max a.length b.length
    · have hpad := hall n (List.mem_range.mpr hn)
      have hla : a.length = a.data.length := rfl
      have hlb : b.length = b.data.length := rfl
      by_cases hna : n < a.data.length
      · have hnb : n < b.data.length := by
          rw [← hlb, ← hlen, hla]; exact hna
        have ha' : padByte a n = (a.data.get ⟨n, hna⟩).toNat := by
          simp [padByte, List.getElem?_eq_getElem hna]
        have hb' : padByte b n = (b.data.get ⟨n, hnb⟩).toNat := by
          simp [padByte, List.getElem?_eq_getElem hnb]
        have hc : a.data.get ⟨n, hna⟩ = b.data.get ⟨n, hnb⟩ :=
          char_toNat_inj (by rw [← ha', ← hb', hpad])
        rw [List.get?_eq_get hna, List.get?_eq_get hnb, hc]
      · have hnb : ¬ n < b.data.length := by
          rw [← hlb, ← hlen, hla]; exact hna
        rw [List.get?_eq_none.mpr (Nat.le_of_not_lt hna),
            List.get?_eq_none.mpr (Nat.le_of_not_lt hnb)]
    · have hna : ¬ n < a.data.length := fun hc =>
        hn (Nat.lt_of_lt_of_le hc (Nat.le_max_left _ _))
      have hnb : ¬ n < b.data.length := fun hc =>
        hn (Nat.lt_of_lt_of_le hc (Nat.le_max_right _ _))
      rw [List.get?_eq_none.mpr (Nat.le_of_not_lt hna),
          List.get?_eq_none.mpr (Nat.le_of_not_lt hnb)]
  · rintro rfl
    exact ⟨⟨trivial, fun i _ => rfl⟩, rfl⟩

/-- C1 counterexample: with catalog [codeword "leaf"; codeword "LEAF"] and
submitted token "LEAF", an exact match exists (item "B", the first
exact-matching item in catalog order), yet the single-pass loop of the
handlers resolves item "A", which matches only case-insensitively — the
two-pass procedure the claim describes would resolve "B". -/
theorem c1_two_pass_counterexample :
    (demoCatC1.find? (fun cc => consttime_eq cc.token_text "LEAF")).map Checkpoint.id
      = some "B" ∧
    (findMatch demoCatC1 "LEAF").map Checkpoint.id = some "A" ∧
    findMatchSpecTwoPass demoCatC1 "LEAF" ≠ findMatch demoCatC1 "LEAF" := by
  decide

/-- C1 (amended): codeword matching is a single pass in catalog order: the
item resolved is the first item whose codeword matches the trimmed token
exactly or case-insensitively (exact is tried before case-insensitive only
within each item), and no_match is reported exactly when no catalog item
matches the token either way. -/
theorem findMatch_single_pass (cps : List Checkpoint) (tok : String) :
    findMatch cps tok =
      cps.find? (fun cc => consttime_eq cc.token_text tok ||
        (asciiLower cc.token_text == asciiLower tok)) ∧
    (findMatch cps tok = none ↔
      ∀ cc ∈ cps, consttime_eq cc.token_text tok = false ∧
        (asciiLower cc.token_text == asciiLower tok) = false) := by
  have hmain : ∀ l : List Checkpoint, findMatch l tok =
      l.find? (fun cc => consttime_eq cc.token_text tok ||
        (asciiLower cc.token_text == asciiLower tok)) := by
    intro l
    induction l with
    | nil => rfl
    | cons cc rest ih =>
      by_cases h1 : consttime_eq cc.token_text tok
      · simp [findMatch, List.find?_cons, h1]
      · by_cases h2 : (asciiLower cc.token_text == asciiLower tok) = true
        · simp [findMatch, List.find?_cons, h1, h2]
        · simp [findMatch, List.find?_cons, h1, h2, ih]
  refine ⟨hmain cps, ?_⟩
  rw [hmain cps, List.find?_eq_none]
  constructor
  · intro h cc hcc
    have hx := h cc hcc
    simp only [Bool.or_eq_true, not_or, Bool.not_eq_true] at hx
    exact hx
  · intro h cc hcc
    have hx := h cc hcc
    simp [hx.1, hx.2]

/-- Witness for the amended C1 theorem: on the demo catalog a token
matching nothing yields no_match. -/
theorem findMatch_single_pass_witness : findMatch demoCatC1 "acorn" = none :=
  (findMatch_single_pass demoCatC1 "acorn").2.mpr (by decide)

/-! ## Claim C2: idempotence of submit_code -/

theorem replaceFirstTeam_find (ts : List Team) (tid : String) (t t1 : Team)
    (hf : findTeamById ts tid = some t) (hid : t1.id = t.id) :
    findTeamById (replaceFirstTeam ts tid t1) tid = some t1 := by
  induction ts with
  | nil => simp [findTeamById] at hf
  | cons u rest ih =>
    by_cases hu : (u.id == tid) = true
    · have hp : (fun v => v.id == tid) u = true := hu
      rw [findTeamById, List.find?_cons_of_pos (p := fun v : Team => v.id == tid) rest hp] at hf
      injection hf with hf
      subst hf
      have hp1 : (fun v => v.id == tid) t1 = true := by
        show (t1.id == tid) = true
        rw [hid]
        exact hu
      rw [replaceFirstTeam, if_pos hu, findTeamById,
        List.find?_cons_of_pos (p := fun v : Team => v.id == tid) rest hp1]
    · have hp : ¬ (fun v => v.id == tid) u = true := hu
      rw [findTeamById, List.find?_cons_of_neg (p := fun v : Team => v.id == tid) rest hp] at hf
      rw [replaceFirstTeam, if_neg hu, findTeamById,
        List.find?_cons_of_neg (p := fun v : Team => v.id == tid) _ hp]
      exact ih hf

/-- After any accepted submission, resubmitting the same raw token for the
same team in the resulting state reports duplicate with the same total and
returns the state unchanged. -/
theorem submitCode_resubmit_duplicate (st : ScoreState) (tid tok : String)
    (a tot : Int) (cid : String) (st1 : ScoreState)
    (h : submitCode st tid tok = (.accepted a tot cid, st1)) :
    submitCode st1 tid tok = (.duplicate tot, st1) := by
  unfold submitCode at h
  cases hft : findTeamById st.teams tid with
  | none => rw [hft] at h; simp at h
  | some t =>
    rw [hft] at h
    simp only at h
    by_cases hemp : ((trimChars tok).length == 0) = true
    · rw [if_pos hemp] at h; simp at h
    · rw [if_neg hemp] at h
      cases hfm : findMatch st.checkpoints (trimChars tok) with
      | none => rw [hfm] at h; simp at h
      | some c =>
        rw [hfm] at h
        simp only at h
        by_cases hdup : teamFoundHas t c.id = true
        · rw [if_pos hdup] at h; simp at h
        · rw [if_neg hdup] at h
          simp only [Prod.mk.injEq, SubmitResult.accepted.injEq] at h
          obtain ⟨⟨ha, htot, hcid⟩, hst1⟩ := h
          have ht1 : (teamAddFound st.checkpoints t c.id).2 =
              updatePointsFromFound st.checkpoints
                { t with found := t.found ++ [c.id] } := by
            simp [teamAddFound, hdup]
          have hid : (teamAddFound st.checkpoints t c.id).2.id = t.id := by
            rw [ht1]; rfl
          have hteams : st1.teams =
              replaceFirstTeam st.teams tid (teamAddFound st.checkpoints t c.id).2 := by
            rw [← hst1]; rfl
          have hcps : st1.checkpoints = st.checkpoints := by
            rw [← hst1]; rfl
          have hfind : findTeamById st1.teams tid =
              some (teamAddFound st.checkpoints t c.id).2 := by
            rw [hteams]
            exact replaceFirstTeam_find st.teams tid t _ hft hid
          have hhas : teamFoundHas (teamAddFound st.checkpoints t c.id).2 c.id = true := by
            rw [ht1]
            simp [teamFoundHas, updatePointsFromFound, List.any_append]
          unfold submitCode
          rw [hfind]
          simp only
          rw [if_neg hemp, hcps, hfm]
          simp only
          rw [if_pos hhas]
          have hpts : (teamAddFound st.checkpoints t c.id).2.points = tot := htot
          rw [hpts]

/-- C2: submit_code is idempotent per (team, codeword): for a team resolved
by `tid` and a trimmed non-empty token resolving to a catalog item the
team has not yet found, the first submission is accepted with the item's
award and the recomputed total, and resubmitting the same raw token in the
resulting state reports duplicate with the identical total and leaves the
state (roster, found_items, points and persisted documents) unchanged —
hence every later resubmission behaves the same, the state being `st1`
again. -/
theorem submit_code_idempotent (st : ScoreState) (tid tok : String)
    (t : Team) (c : Checkpoint)
    (hft : findTeamById st.teams tid = some t)
    (hemp : ((trimChars tok).length == 0) = false)
    (hfm : findMatch st.checkpoints (trimChars tok) = some c)
    (hnew : teamFoundHas t c.id = false) :
    ∃ st1 : ScoreState,
      submitCode st tid tok =
        (.accepted c.points ((teamAddFound st.checkpoints t c.id).2).points c.id, st1) ∧
      submitCode st1 tid tok =
        (.duplicate ((teamAddFound st.checkpoints t c.id).2).points, st1) := by
  have hemp2 : ¬ ((trimChars tok).length == 0) = true := by
    rw [hemp]
    exact Bool.false_ne_true
  have hnew2 : ¬ teamFoundHas t c.id = true := by
    rw [hnew]
    exact Bool.false_ne_true
  have hfirst : submitCode st tid tok =
      (.accepted c.points ((teamAddFound st.checkpoints t c.id).2).points c.id,
        saveTeams { st with
          teams := replaceFirstTeam st.teams tid ((teamAddFound st.checkpoints t c.id).2) }) := by
    unfold submitCode
    rw [hft]
    simp only
    rw [if_neg hemp2, hfm]
    simp only
    rw [if_neg hnew2]
  exact ⟨_, hfirst, submitCode_resubmit_duplicate st tid tok _ _ _ _ hfirst⟩

/-- Witness for C2 at a concrete input: submitting "leaf-42" (lower case)
against the catalog item "LEAF-42" is accepted with 10 points, and the
resubmission reports duplicate with the same total of 10 without changing
the state. -/
theorem submit_code_idempotent_witness :
    ∃ st1 : ScoreState,
      submitCode demoStateC2 "T1" "leaf-42" = (.accepted 10 10 "C1", st1) ∧
      submitCode st1 "T1" "leaf-42" = (.duplicate 10, st1) :=
  submit_code_idempotent demoStateC2 "T1" "leaf-42"
    ⟨"T1", "Foxes", "", [], 0, 0⟩ ⟨"C1", "Oak Tree", "LEAF-42", 10⟩
    (by decide) (by decide) (by decide) (by decide)

theorem mem_replaceFirstTeam {ts : List Team} {tid : String} {t1 u : Team}
    (hu : u ∈ replaceFirstTeam ts tid t1) : u ∈ ts ∨ u = t1 := by
  induction ts with
  | nil => simp [replaceFirstTeam] at hu
  | cons v rest ih =>
    by_cases hv : (v.id == tid) = true
    · rw [replaceFirstTeam, if_pos hv] at hu
      rcases List.mem_cons.mp hu with h | h
      · right; exact h
      · left; exact List.mem_cons_of_mem _ h
    · rw [replaceFirstTeam, if_neg hv] at hu
      rcases List.mem_cons.mp hu with h | h
      · left; exact h ▸ List.mem_cons_self _ _
      · rcases ih h with h2 | h2
        · left; exact List.mem_cons_of_mem _ h2
        · right; exact h2

/-- Shape of the state submit_code returns: unchanged, or the saved roster
with the first matching team replaced by its awarded update. -/
theorem submitCode_state (st : ScoreState) (tid tok : String) :
    (submitCode st tid tok).2 = st ∨
    ∃ t c, findTeamById st.teams tid = some t ∧
      findMatch st.checkpoints (trimChars tok) = some c ∧
      teamFoundHas t c.id = false ∧
      (submitCode st tid tok).2 =
        saveTeams { st with
          teams := replaceFirstTeam st.teams tid ((teamAddFound st.checkpoints t c.id).2) } := by
  unfold submitCode
  cases hft : findTeamById st.teams tid with
  | none => left; rfl
  | some t =>
    simp only
    by_cases hemp : ((trimChars tok).length == 0) = true
    · rw [if_pos hemp]; left; rfl
    · rw [if_neg hemp]
      cases hfm : findMatch st.checkpoints (trimChars tok) with
      | none => left; rfl
      | some c =>
        simp only
        by_cases hdup : teamFoundHas t c.id = true
        · rw [if_pos hdup]; left; rfl
        · rw [if_neg hdup]
          right
          exact ⟨t, c, rfl, rfl, Bool.not_eq_true _ ▸ hdup, rfl⟩

/-- C3 counterexample: the wholesale catalog replacement (here: with the
empty catalog) does not recompute any team's points, so immediately after
this core operation the team still carries 10 points while the sum over
its surviving found items is 0 — the claimed at-every-point invariant
fails. -/
theorem c3_catalog_replacement_counterexample :
    pointsInvariant demoStateC3 ∧
    ¬ pointsInvariant (saveCatalog demoStateC3 [] []) := by
  constructor
  · intro t ht
    fin_cases ht
    decide
  · intro hinv
    have ht : (⟨"T1", "Foxes", "", ["C1"], 10, 0⟩ : Team) ∈
        (saveCatalog demoStateC3 [] []).teams := by
      exact List.mem_singleton.mpr rfl
    have := hinv _ ht
    simp [pointsFromFound, findCheckpointById, saveCatalog, saveCheckpointsDoc,
      buildCatalog, demoStateC3] at this

/-- C3 (amended): the points invariant is preserved by submit_code and by
registration, and the leaderboard's recomputation pass re-establishes it
for every team from any state; the wholesale catalog replacement, however,
leaves team points untouched (see the counterexample), so after a catalog
change the invariant only holds again once points are next recomputed
(by the next leaderboard read or the next award to that team). -/
theorem points_invariant_ops (st st2 : ScoreState) (h : String → String)
    (tid tok nm pin : String) (r now : Nat)
    (hinv : pointsInvariant st) :
    pointsInvariant (submitCode st tid tok).2 ∧
    pointsInvariant (registerTeam h st nm pin r now).2 ∧
    pointsInvariant (leaderboardHandler st2).2 := by
  refine ⟨?_, ?_, ?_⟩
  · rcases submitCode_state st tid tok with hs | ⟨t, c, -, -, hdup, hs⟩
    · rw [hs]; exact hinv
    · rw [hs]
      intro u hu
      rcases mem_replaceFirstTeam hu with h1 | h1
      · exact hinv u h1
      · subst h1
        simp [teamAddFound, hdup, updatePointsFromFound, saveTeams]
  · unfold registerTeam
    by_cases hbad : (sanitizeName nm).length < 1 ∨ pin.length < PIN_MINLEN ∨
        PIN_MAXLEN < pin.length
    · rw [if_pos hbad]; exact hinv
    · rw [if_neg hbad]
      cases hfn : findTeamByName st.teams (sanitizeName nm) with
      | some t2 => exact hinv
      | none =>
        intro u hu
        simp only [saveTeams] at hu
        rcases List.mem_append.mp hu with h1 | h1
        · exact hinv u h1
        · have hu1 := List.mem_singleton.mp h1
          subst hu1
          simp [updatePointsFromFound, saveTeams]
  · intro u hu
    simp only [leaderboardHandler] at hu
    rcases List.mem_map.mp hu with ⟨w, -, hw⟩
    subst hw
    simp [updatePointsFromFound, leaderboardHandler]

/-- Witness for the amended C3 theorem: at the concrete state the
invariant holds before and after an accepted submission. -/
theorem points_invariant_ops_witness :
    pointsInvariant (submitCode demoStateC3 "T1" "LEAF").2 :=
  (points_invariant_ops demoStateC3 demoStateC3 (fun s => s) "T1" "LEAF"
    "Bears" "4242" 7 1 (by intro t ht; fin_cases ht; decide)).1

/-! ## Claim C7: leaderboard behaviour -/

/-- C7: the leaderboard output is the name/points/found-count projection of
the first LEADERBOARD_SIZE (= 20) teams of a sorted permutation of the
roster with every team's points recomputed from its found_items against
the live catalog; the ranking is points descending with ties broken by
earlier created_at; every emitted team outranks every team cut off by the
limit; the output length is min 20 (roster size); and nothing persistent
is mutated (both stored documents are unchanged — only the in-memory
points caches are refreshed, which re-establishes the points
invariant). -/
theorem leaderboard_spec (st : ScoreState) :
    LEADERBOARD_SIZE = 20 ∧
    (∃ v : List Team,
      v.Perm (st.teams.map (updatePointsFromFound st.checkpoints)) ∧
      List.Sorted lbRank v ∧
      (∀ t ∈ v, t.points = pointsFromFound st.checkpoints t.found) ∧
      (∀ t ∈ v.take LEADERBOARD_SIZE, ∀ u ∈ v.drop LEADERBOARD_SIZE, lbRank t u) ∧
      (leaderboardHandler st).1 = (v.take LEADERBOARD_SIZE).map
        (fun t => LBEntry.mk t.name t.points t.found.length)) ∧
    (leaderboardHandler st).1.length = min LEADERBOARD_SIZE st.teams.length ∧
    (leaderboardHandler st).2.checkpoints = st.checkpoints ∧
    (leaderboardHandler st).2.checkpointsDoc = st.checkpointsDoc ∧
    (leaderboardHandler st).2.teamsDoc = st.teamsDoc ∧
    pointsInvariant (leaderboardHandler st).2 := by
  have hperm := List.perm_insertionSort lbRank
    (st.teams.map (updatePointsFromFound st.checkpoints))
  have hsorted := List.sorted_insertionSort lbRank
    (st.teams.map (updatePointsFromFound st.checkpoints))
  refine ⟨rfl, ⟨List.insertionSort lbRank
      (st.teams.map (updatePointsFromFound st.checkpoints)),
      hperm, hsorted, ?_, ?_, rfl⟩, ?_, rfl, rfl, rfl, ?_⟩
  · intro t ht
    have ht1 := hperm.mem_iff.mp ht
    rcases List.mem_map.mp ht1 with ⟨w, -, hw⟩
    subst hw
    rfl
  · intro t ht u hu
    have hsplit := List.take_append_drop LEADERBOARD_SIZE
      (List.insertionSort lbRank (st.teams.map (updatePointsFromFound st.checkpoints)))
    have hp : List.Pairwise lbRank
        ((List.insertionSort lbRank
          (st.teams.map (updatePointsFromFound st.checkpoints))).take LEADERBOARD_SIZE ++
         (List.insertionSort lbRank
          (st.teams.map (updatePointsFromFound st.checkpoints))).drop LEADERBOARD_SIZE) := by
      rw [hsplit]
      exact hsorted
    exact (List.pairwise_append.mp hp).2.2 t ht u hu
  · simp only [leaderboardHandler, List.length_map, List.length_take]
    rw [List.length_insertionSort, List.length_map]
  · intro u hu
    simp only [leaderboardHandler] at hu
    rcases List.mem_map.mp hu with ⟨w, -, hw⟩
    subst hw
    simp [updatePointsFromFound, leaderboardHandler]

/-- Witness for C7 at a concrete state: the persisted teams document is
untouched by a leaderboard read. -/
theorem leaderboard_spec_witness :
    (leaderboardHandler demoStateC7).2.teamsDoc = demoStateC7.teamsDoc :=
  (leaderboard_spec demoStateC7).2.2.2.2.2.1

/-! ## Claim C4: firmware-version reconciliation -/

/-- C4: when the persisted firmware marker differs from the current
build's marker, boot clears admin_secret_hash, forces SETUP mode, adopts
the current marker and saves the configuration, while the checkpoints and
teams documents are preserved (the wipe flags are compiled off); when the
markers match, nothing changes. -/
theorem version_reset_policy (st : Device) (fwVersion storedVersion : String) :
    (storedVersion ≠ fwVersion →
      (applyVersionResetIfNeeded fwVersion storedVersion st).config.admin_hash = "" ∧
      (applyVersionResetIfNeeded fwVersion storedVersion st).config.mode = Mode.setup ∧
      (applyVersionResetIfNeeded fwVersion storedVersion st).config.fw_version = fwVersion ∧
      (applyVersionResetIfNeeded fwVersion storedVersion st).checkpointsDoc = st.checkpointsDoc ∧
      (applyVersionResetIfNeeded fwVersion storedVersion st).teamsDoc = st.teamsDoc ∧
      (applyVersionResetIfNeeded fwVersion storedVersion st).configDoc =
        some { st.config with admin_hash := "", mode := Mode.setup, fw_version := fwVersion, game_pass := "" }) ∧
    (storedVersion = fwVersion →
      applyVersionResetIfNeeded fwVersion storedVersion st = st) := by
  constructor
  · intro hne
    have hbeq : ¬ (storedVersion == fwVersion) = true := by
      simpa using hne
    unfold applyVersionResetIfNeeded
    rw [if_neg hbeq]
    exact ⟨rfl, rfl, rfl, rfl, rfl, rfl⟩
  · intro heq
    unfold applyVersionResetIfNeeded
    rw [if_pos (by simp [heq])]

/-- Witness for C4: flashing "v2" over the "v1" device clears the secret
and keeps the catalog document. -/
theorem version_reset_policy_witness :
    (applyVersionResetIfNeeded "v2" "v1" demoDeviceC4).config.admin_hash = "" ∧
    (applyVersionResetIfNeeded "v2" "v1" demoDeviceC4).checkpointsDoc =
      demoDeviceC4.checkpointsDoc ∧
    applyVersionResetIfNeeded "v1" "v1" demoDeviceC4 = demoDeviceC4 :=
  ⟨((version_reset_policy demoDeviceC4 "v2" "v1").1 (by decide)).1,
   ((version_reset_policy demoDeviceC4 "v2" "v1").1 (by decide)).2.2.2.1,
   (version_reset_policy demoDeviceC4 "v1" "v1").2 rfl⟩

/-! ## Claim C10: operator-only reset frame -/

/-- C10: the operator-only reset (wipe_all = false) clears the admin hash
and forces SETUP mode, in memory and in the saved configuration record,
and changes nothing else — every other configuration field and both the
checkpoints and teams documents are exactly as before; the wipe-all
variant is the only one that formats the filesystem (removing the data
documents). -/
theorem factory_reset_frame (st : Device) (fwVersion : String) :
    (factoryReset fwVersion false st).config.admin_hash = "" ∧
    (factoryReset fwVersion false st).config.mode = Mode.setup ∧
    (factoryReset fwVersion false st).config.setup_ssid = st.config.setup_ssid ∧
    (factoryReset fwVersion false st).config.setup_pass = st.config.setup_pass ∧
    (factoryReset fwVersion false st).config.game_ssid = st.config.game_ssid ∧
    (factoryReset fwVersion false st).config.fw_version = st.config.fw_version ∧
    (factoryReset fwVersion false st).checkpointsDoc = st.checkpointsDoc ∧
    (factoryReset fwVersion false st).teamsDoc = st.teamsDoc ∧
    (factoryReset fwVersion false st).configDoc =
      some { st.config with admin_hash := "", mode := Mode.setup, game_pass := "" } ∧
    (factoryReset fwVersion true st).checkpointsDoc = none ∧
    (factoryReset fwVersion true st).teamsDoc = none :=
  ⟨rfl, rfl, rfl, rfl, rfl, rfl, rfl, rfl, rfl, rfl, rfl⟩

theorem find?_filter_of_imp {α : Type} (l : List α) (p f : α → Bool)
    (h : ∀ x, p x = true → f x = true) :
    (l.filter f).find? p = l.find? p := by
  induction l with
  | nil => rfl
  | cons x xs ih =>
    by_cases hf : f x = true
    · rw [List.filter_cons_of_pos hf]
      by_cases hp : p x = true
      · rw [List.find?_cons_of_pos _ hp, List.find?_cons_of_pos _ hp]
      · rw [List.find?_cons_of_neg _ hp, List.find?_cons_of_neg _ hp, ih]
    · rw [List.filter_cons_of_neg hf]
      have hp : ¬ p x = true := fun hpx => hf (h x hpx)
      rw [List.find?_cons_of_neg _ hp, ih]

theorem fsLookup_remove_self (fs : FS) (p : String) :
    fsLookup (fsRemove fs p) p = none := by
  unfold fsLookup fsRemove
  have hfind : List.find? (fun e => (e : String × String).1 == p)
      (List.filter (fun e => !((e : String × String).1 == p)) fs) = none := by
    rw [List.find?_eq_none]
    intro x hx
    have := (List.mem_filter.mp hx).2
    simpa using this
  rw [hfind]
  rfl

theorem fsLookup_remove_other (fs : FS) (p q : String) (h : q ≠ p) :
    fsLookup (fsRemove fs p) q = fsLookup fs q := by
  unfold fsLookup fsRemove
  rw [find?_filter_of_imp]
  intro x hx
  simp only [beq_iff_eq] at hx
  simp [hx, h]

theorem fsLookup_insert_self (fs : FS) (p v : String) :
    fsLookup (fsInsert fs p v) p = some v := by
  unfold fsLookup fsInsert
  rw [List.find?_append]
  have h1 : List.find? (fun e => e.1 == p) (fsRemove fs p) = none := by
    rw [List.find?_eq_none]
    intro x hx
    have := (List.mem_filter.mp hx).2
    simpa using this
  rw [h1]
  simp

theorem fsLookup_insert_other (fs : FS) (p q v : String) (h : q ≠ p) :
    fsLookup (fsInsert fs p v) q = fsLookup fs q := by
  unfold fsLookup fsInsert
  rw [List.find?_append]
  have h2 : List.find? (fun e => (e : String × String).1 == q) [(p, v)] = none := by
    rw [List.find?_eq_none]
    intro x hx
    have hx1 := List.mem_singleton.mp hx
    subst hx1
    simp
    exact fun he => h he.symm
  rw [h2]
  have h3 : List.find? (fun e => (e : String × String).1 == q) (fsRemove fs p) =
      List.find? (fun e => (e : String × String).1 == q) fs := by
    unfold fsRemove
    rw [find?_filter_of_imp]
    intro x hx
    simp only [beq_iff_eq] at hx
    simp [hx, h]
  rw [h3]
  cases List.find? (fun e => (e : String × String).1 == q) fs <;> rfl

theorem path_ne_tmp (p : String) : p ≠ p ++ ".tmp" := by
  intro h
  have := congrArg String.length h
  rw [String.length_append] at this
  have h4 : (".tmp" : String).length = 4 := rfl
  omega

theorem strTake_full (s : String) : strTake s s.length = s := by
  unfold strTake
  have : s.length = s.data.length := rfl
  rw [this, List.take_length]

/-- C5: the save discipline writes the document to path.tmp, verifies the
committed byte count, removes the prior final file and renames the
temporary into place only on full success: a complete write succeeds with
the final path holding exactly the data and no temporary left behind,
while a short write fails, removes the temporary and leaves whatever was
previously at the final path untouched. -/
theorem write_string_to_file_crash_safe (fs : FS) (path data : String) (written : Nat) :
    (data.length ≤ written →
      (writeStringToFile fs path data written).1 = true ∧
      fsLookup (writeStringToFile fs path data written).2 path = some data ∧
      fsLookup (writeStringToFile fs path data written).2 (path ++ ".tmp") = none) ∧
    (written < data.length →
      (writeStringToFile fs path data written).1 = false ∧
      fsLookup (writeStringToFile fs path data written).2 path = fsLookup fs path ∧
      fsLookup (writeStringToFile fs path data written).2 (path ++ ".tmp") = none) := by
  constructor
  · intro hts
    have hn : min written data.length = data.length := Nat.min_eq_right hts
    have htmp2 : fsLookup (fsRemove (fsInsert fs (path ++ ".tmp") data) path)
        (path ++ ".tmp") = some data := by
      rw [fsLookup_remove_other _ _ _ (Ne.symm (path_ne_tmp path))]
      exact fsLookup_insert_self fs (path ++ ".tmp") data
    have hres : writeStringToFile fs path data written =
        (true, fsInsert (fsRemove (fsRemove (fsInsert fs (path ++ ".tmp") data)
          path) (path ++ ".tmp")) path data) := by
      simp only [writeStringToFile]
      rw [hn, strTake_full, if_neg (by omega : ¬ data.length ≠ data.length), htmp2]
    rw [hres]
    refine ⟨rfl, ?_, ?_⟩
    · exact fsLookup_insert_self _ path data
    · rw [fsLookup_insert_other _ _ _ _ (Ne.symm (path_ne_tmp path))]
      exact fsLookup_remove_self _ (path ++ ".tmp")
  · intro hlt
    have hn : min written data.length = written := Nat.min_eq_left (Nat.le_of_lt hlt)
    have hres : writeStringToFile fs path data written =
        (false, fsRemove (fsInsert fs (path ++ ".tmp") (strTake data written))
          (path ++ ".tmp")) := by
      simp only [writeStringToFile]
      rw [hn, if_pos (by omega : written ≠ data.length)]
    rw [hres]
    refine ⟨rfl, ?_, ?_⟩
    · rw [fsLookup_remove_other _ _ _ (path_ne_tmp path)]
      rw [fsLookup_insert_other _ _ _ _ (path_ne_tmp path)]
    · exact fsLookup_remove_self _ _

/-- Witness for C5 at a concrete filesystem: a full write replaces the old
configuration content, a short write fails and leaves it in place. -/
theorem write_string_to_file_crash_safe_witness :
    fsLookup (writeStringToFile [("/config.json", "old")] "/config.json" "next" 4).2
      "/config.json" = some "next" ∧
    fsLookup (writeStringToFile [("/config.json", "old")] "/config.json" "next" 2).2
      "/config.json" = some "old" :=
  ⟨((write_string_to_file_crash_safe [("/config.json", "old")] "/config.json"
      "next" 4).1 (by decide)).2.1,
   (((write_string_to_file_crash_safe [("/config.json", "old")] "/config.json"
      "next" 2).2 (by decide)).2.1).trans (by decide)⟩

theorem string_length_eq_zero {s : String} : s.length = 0 ↔ s = "" := by
  constructor
  · intro h0
    have hd : s.data = [] := List.length_eq_zero.mp h0
    exact String.ext hd
  · intro h0
    rw [h0]
    rfl

theorem adminGuard_denied (h : String → String) (hash hdr : String)
    (hng : adminGuard h hash hdr ≠ .granted) :
    adminGuard h hash hdr = .denied 401 true := by
  unfold adminGuard at hng ⊢
  by_cases h0 : (hash.length == 0) = true
  · rw [if_pos h0] at hng
    exact absurd rfl hng
  · rw [if_neg h0] at hng ⊢
    cases hp : parseBasicAuth hdr with
    | none => rfl
    | some pr =>
      obtain ⟨u, p⟩ := pr
      rw [hp] at hng
      have hng2 : (if consttime_eq (h p) hash = true then GuardResult.granted
          else GuardResult.denied 401 true) ≠ GuardResult.granted := hng
      show (if consttime_eq (h p) hash = true then GuardResult.granted
          else GuardResult.denied 401 true) = GuardResult.denied 401 true
      by_cases hc : consttime_eq (h p) hash = true
      · rw [if_pos hc] at hng2
        exact absurd rfl hng2
      · rw [if_neg hc]

/-- C6: access is granted iff no secret is configured or the request
carries a parseable Basic credential whose secret's hash equals the stored
hash under the constant-time comparison; every denial is exactly a 401
carrying a WWW-Authenticate challenge; and a denied request mutates
nothing — the guarded handler returns its state unchanged together with
the challenge response. -/
theorem admin_guard_spec (h : String → String) (hash hdr : String) :
    (adminGuard h hash hdr = .granted ↔
      hash = "" ∨ ∃ u p, parseBasicAuth hdr = some (u, p) ∧
        consttime_eq (h p) hash = true) ∧
    (adminGuard h hash hdr ≠ .granted →
      adminGuard h hash hdr = .denied 401 true) ∧
    (∀ (σ : Type) (st : σ) (body : σ → HttpResponse × σ),
      adminGuard h hash hdr ≠ .granted →
      withAdminGuard h hash hdr st body = (⟨401, true⟩, st)) := by
  have hlen : (hash.length == 0) = true ↔ hash = "" := by
    rw [beq_iff_eq]
    exact string_length_eq_zero
  refine ⟨⟨?_, ?_⟩, adminGuard_denied h hash hdr, ?_⟩
  · intro hg
    unfold adminGuard at hg
    by_cases h0 : (hash.length == 0) = true
    · left
      exact hlen.mp h0
    · rw [if_neg h0] at hg
      right
      cases hp : parseBasicAuth hdr with
      | none =>
        rw [hp] at hg
        have hg2 : GuardResult.denied 401 true = GuardResult.granted := hg
        exact absurd hg2 (by decide)
      | some pr =>
        obtain ⟨u, p⟩ := pr
        rw [hp] at hg
        have hg2 : (if consttime_eq (h p) hash = true then GuardResult.granted
            else GuardResult.denied 401 true) = GuardResult.granted := hg
        by_cases hc : consttime_eq (h p) hash = true
        · exact ⟨u, p, rfl, hc⟩
        · rw [if_neg hc] at hg2
          exact absurd hg2 (by decide)
  · intro hor
    unfold adminGuard
    rcases hor with h0 | ⟨u, p, hp, hc⟩
    · rw [if_pos (hlen.mpr h0)]
    · by_cases h0 : (hash.length == 0) = true
      · rw [if_pos h0]
      · rw [if_neg h0, hp]
        show (if consttime_eq (h p) hash = true then GuardResult.granted
            else GuardResult.denied 401 true) = GuardResult.granted
        rw [if_pos hc]
  · intro σ st body hng
    unfold withAdminGuard
    rw [adminGuard_denied h hash hdr hng]

/-- Witness for C6: with no secret configured every request is granted,
and with a secret configured a request with no parseable credential is
denied with the 401 challenge and leaves the state unchanged. -/
theorem admin_guard_spec_witness :
    adminGuard (fun s => s) "" "junk" = .granted ∧
    withAdminGuard (fun s => s) "aabb" "junk" (0 : Nat)
      (fun n => (⟨200, false⟩, n + 1)) = (⟨401, true⟩, 0) :=
  ⟨(admin_guard_spec (fun s => s) "" "junk").1.mpr (Or.inl rfl),
   (admin_guard_spec (fun s => s) "aabb" "junk").2.2 Nat 0
     (fun n => (⟨200, false⟩, n + 1)) (by decide)⟩

/-! ## Claim C8: the constant-time comparison -/

/-- C8 (read through the claim's own equivalent formulation): the
constant-time comparison returns true exactly when its two arguments have
equal length and equal content — so for any hash function, unequal
digests always compare false — and the number of loop iterations the
comparison executes depends only on the two lengths, never on the
position at which the arguments first differ. -/
theorem consttime_eq_correct_and_const_time (a b a2 b2 : String) :
    (consttime_eq a b = true ↔ a = b) ∧
    (a.length = a2.length → b.length = b2.length →
      consttime_eqSteps a b = consttime_eqSteps a2 b2) := by
  refine ⟨consttime_eq_true_iff a b, ?_⟩
  intro h1 h2
  unfold consttime_eqSteps
  rw [h1, h2]

/-- Witness for C8: same-length inputs differing at the first versus the
last position drive the very same number of comparison-loop iterations,
and a mismatching pair compares unequal. -/
theorem consttime_eq_correct_and_const_time_witness :
    (consttime_eq "Xecret" "secret" = true ↔ ("Xecret" : String) = "secret") ∧
    consttime_eqSteps "Xecret" "secret" = consttime_eqSteps "secreX" "secret" :=
  ⟨(consttime_eq_correct_and_const_time "Xecret" "secret" "secreX" "secret").1,
   (consttime_eq_correct_and_const_time "Xecret" "secret" "secreX" "secret").2
     rfl rfl⟩

/-- C9 counterexample: two submitted rows without ids, with the two
esp_random draws 5 and 1005 (distinct raw values), both synthesize the id
"C005" — newId carries no uniqueness check and reduces the draw mod 1000 —
so the stored catalog's ids are not pairwise distinct. -/
theorem c9_unique_id_counterexample :
    ((saveCatalog demoEmptyC9 demoItemsC9 [5, 1005]).checkpoints.map
      Checkpoint.id) = ["C005", "C005"] ∧
    ¬ ((saveCatalog demoEmptyC9 demoItemsC9 [5, 1005]).checkpoints.map
      Checkpoint.id).Nodup := by
  constructor
  · decide
  · decide

theorem buildCatalog_ids_sublist (items : List CheckpointInput) (rng : List Nat)
    (hne : ∀ o ∈ items, o.id ≠ "") :
    ((buildCatalog items rng).map Checkpoint.id).Sublist
      (items.map CheckpointInput.id) := by
  induction items generalizing rng with
  | nil => simp [buildCatalog]
  | cons o rest ih =>
    have ho : o.id ≠ "" := hne o (List.mem_cons_self _ _)
    have hlen : ¬ (o.id.length == 0) = true := by
      rw [beq_iff_eq]
      intro hz
      exact ho (string_length_eq_zero.mp hz)
    have hrest : ∀ x ∈ rest, x.id ≠ "" :=
      fun x hx => hne x (List.mem_cons_of_mem _ hx)
    unfold buildCatalog
    rw [if_neg hlen, if_neg hlen]
    by_cases hs : saneToken (trimChars o.token_text) = true
    · rw [if_pos hs]
      simp only [List.map_cons]
      exact List.Sublist.cons₂ _ (ih rng hrest)
    · rw [if_neg hs]
      simp only [List.map_cons]
      exact List.Sublist.cons _ (ih rng hrest)

/-- C9 (amended): the save-catalog action performs no uniqueness check at
all: a submitted entry lacking an id gets the three-digit value of an
esp_random draw mod 1000, which can collide (see the counterexample), and
submitted ids are stored as given.  What does hold: when every submitted
entry carries a nonempty id and those ids are pairwise distinct, the
stored catalog's ids are pairwise distinct (dropping malformed rows
preserves distinctness). -/
theorem saveCatalog_nodup_of_given_ids (st : ScoreState)
    (items : List CheckpointInput) (rng : List Nat)
    (hne : ∀ o ∈ items, o.id ≠ "")
    (hnd : (items.map CheckpointInput.id).Nodup) :
    ((saveCatalog st items rng).checkpoints.map Checkpoint.id).Nodup := by
  have hsub := buildCatalog_ids_sublist items rng hne
  exact hsub.nodup hnd

/-- Witness for the amended C9 theorem at concrete distinct submitted
ids. -/
theorem saveCatalog_nodup_of_given_ids_witness :
    ((saveCatalog demoEmptyC9
      [⟨"X1", "a", "AA", 1⟩, ⟨"X2", "b", "BB", 1⟩] []).checkpoints.map
        Checkpoint.id).Nodup :=
  saveCatalog_nodup_of_given_ids demoEmptyC9
    [⟨"X1", "a", "AA", 1⟩, ⟨"X2", "b", "BB", 1⟩] []
    (by decide) (by decide)

end Scavenger
